import Mathlib

/-!
Verification development for the concurrency-comparison drill
(`16-Multithreading and Multiprocessing/multidrill`).

The four strategy scripts (`01_sequential.py`, `02_threadpool.py`,
`03_processpool.py`, `04_hybrid.py`) and the harness
(`run_all_comparison.py`) are embedded shallowly below.

Pool nondeterminism is made explicit: `concurrent.futures` executors run
submitted tasks in an unspecified internal completion order, but
`Executor.map` yields results in submission order.  We model the internal
completion order as a list of indices `sched` (a permutation of the valid
indices); `executor_map` dispatches a task per item, records completion
events in schedule order, and then collects the results back in submission
order, exactly as the `map` iterator of `concurrent.futures` does.

The hybrid script's `os.getpid()` is an environment value: each worker
process has one fixed pid, modelled as a parameter (one pid per chunk,
since one chunk is handled entirely inside one worker process).

Elapsed wall-clock times measured by the harness are external inputs; they
are modelled as rationals.
-/

namespace Multidrill

/-- `01_sequential.py` / `02_threadpool.py` / `03_processpool.py`,
`square_number`: `return f"Square of {number} = {number * number}"`.
The `time.sleep(2)` call is the only effect of the Python function; the
returned value is this pure string. -/
def square_number (number : Nat) : String :=
  "Square of " ++ toString number ++ " = " ++ toString (number * number)

/-- The fixed latency of the workload function: `time.sleep(2)`. -/
def SLEEP_SECONDS : Nat := 2

/-- The fixed input list, identical in all four scripts:
`numbers = [1, 2, ..., 14]`. -/
def numbers : List Nat := [1, 2, 3, 4, 5, 6, 7, 8, 9, 10, 11, 12, 13, 14]

/-- `01_sequential.py` main loop:
`results = []` then `for num in numbers: results.append(square_number(num))`. -/
def sequential_results : List String :=
  numbers.foldl (fun results num => results ++ [square_number num]) []

/-- Completion events of a pool run: the tasks indexed by `sched` finish in
that order; each completion records the submission index and the task's
return value.  Indices out of range produce no event. -/
def completions {α β : Type} (f : α → β) (xs : List α) (sched : List Nat) :
    List (Nat × β) :=
  sched.filterMap fun i => (xs.get? i).map fun x => (i, f x)

/-- `Executor.map f xs` of `concurrent.futures`: all items are submitted at
once, workers complete in the internal order `sched`, and the results are
yielded in submission order (index 0, 1, ...), regardless of `sched`. -/
def executor_map {α β : Type} (f : α → β) (xs : List α) (sched : List Nat) :
    List β :=
  (List.range xs.length).filterMap fun i =>
    ((completions f xs sched).find? fun e => e.1 == i).map Prod.snd

/-- `02_threadpool.py`: `executor.map(square_number, numbers)` under
`ThreadPoolExecutor(max_workers=14)`; `sched` is the internal thread
completion order. -/
def threadpool_results (sched : List Nat) : List String :=
  executor_map square_number numbers sched

/-- `03_processpool.py`: `executor.map(square_number, numbers)` under
`ProcessPoolExecutor(max_workers=3)`; `sched` is the internal process-pool
completion order. -/
def processpool_results (sched : List Nat) : List String :=
  executor_map square_number numbers sched

/-- `04_hybrid.py`, `square_number`:
`return f"Square of {number} = {number * number} (PID: {os.getpid()})"`,
with the worker process id `pid` passed as an environment parameter. -/
def square_number_pid (pid : Nat) (number : Nat) : String :=
  "Square of " ++ toString number ++ " = " ++ toString (number * number)
    ++ " (PID: " ++ toString pid ++ ")"

/-- `04_hybrid.py`, `process_chunk`: inside one worker process (of id
`pid`), `list(thread_executor.map(square_number, chunk))` under
`ThreadPoolExecutor(max_workers=3)`; `tsched` is that thread pool's
internal completion order. -/
def process_chunk (pid : Nat) (tsched : List Nat) (chunk : List Nat) :
    List String :=
  executor_map (square_number_pid pid) chunk tsched

/-- `04_hybrid.py`: `chunk_size = 5  # ceil(14/3)`. -/
def chunk_size : Nat := 5

/-- Python `range(0, stop, step)` for `step > 0`: the multiples of `step`
below `stop`. -/
def pyRange (stop step : Nat) : List Nat :=
  (List.range ((stop + step - 1) / step)).map (· * step)

/-- `04_hybrid.py`:
`chunks = [numbers[i:i + chunk_size] for i in range(0, len(numbers), chunk_size)]`. -/
def chunks : List (List Nat) :=
  (pyRange numbers.length chunk_size).map fun i =>
    (numbers.drop i).take chunk_size

/-- `04_hybrid.py`:
`all_results = list(process_executor.map(process_chunk, chunks))` under
`ProcessPoolExecutor(max_workers=3)`.  The worker process handling chunk
`i` has pid `pids i` and internal thread completion order `tscheds i`;
`psched` is the process pool's own completion order. -/
def hybrid_batches (pids : Nat → Nat) (tscheds : Nat → List Nat)
    (psched : List Nat) : List (List String) :=
  executor_map (fun ic => process_chunk (pids ic.1) (tscheds ic.1) ic.2)
    chunks.enum psched

/-- `04_hybrid.py` flatten loop:
`for batch in all_results: for result in batch: print(result)`. -/
def hybrid_flat (pids : Nat → Nat) (tscheds : Nat → List Nat)
    (psched : List Nat) : List String :=
  (hybrid_batches pids tscheds psched).flatten

/-- A result line embeds the square of `n` iff it starts with the text
`"Square of {n} = {n*n}"` (the hybrid lines continue with the pid tag). -/
def mentions_square (n : Nat) (r : String) : Bool :=
  (square_number n).data.isPrefixOf r.data

/-! ### `run_all_comparison.py`: the comparison harness -/

/-- Outcome of one `subprocess.run([sys.executable, script_path], ...)`
call: captured standard output and error text plus the elapsed wall-clock
time measured around the call (modelled as a rational). -/
structure RunResult where
  stdout : String
  stderr : String
  elapsed : ℚ

/-- `run_all_comparison.py`: the `approaches` list of
`(script, label)` pairs. -/
def approaches : List (String × String) :=
  [("01_sequential.py", "Sequential (No Parallelism)"),
   ("02_threadpool.py", "ThreadPool (14 threads)"),
   ("03_processpool.py", "ProcessPool (3 processes)"),
   ("04_hybrid.py", "Hybrid (3 proc x 3 threads)")]

/-- State threaded through the harness's main loop: the lines printed so
far and the accumulated `timings` list. -/
structure HarnessState where
  printed : List String
  timings : List (String × ℚ)

/-- `'_' * 60`. -/
def sep60 : String := String.mk (List.replicate 60 '_')

/-- One iteration of the harness's `for script, label in approaches` loop:
launch the subprocess (outcome given by the environment `env`), print its
banner, captured stdout (if nonempty) and `"Error: " + stderr` (if
nonempty), and append `(label, elapsed)` to `timings`.  No exception path
exists: `subprocess.run` without `check=True` does not raise on a nonzero
exit code. -/
def runApproach (env : String → RunResult) (st : HarnessState)
    (a : String × String) : HarnessState :=
  let r := env a.1
  { printed := st.printed
      ++ ["", sep60, ">> Running: " ++ a.2, sep60]
      ++ (if r.stdout ≠ "" then [r.stdout] else [])
      ++ (if r.stderr ≠ "" then ["Error: " ++ r.stderr] else [])
    timings := st.timings ++ [(a.2, r.elapsed)] }

/-- The harness's main loop over all four approaches. -/
def runHarness (env : String → RunResult) : HarnessState :=
  approaches.foldl (runApproach env) ⟨[], []⟩

/-- `speedup = sequential_time / elapsed if elapsed > 0 else 0`. -/
def speedup_of (sequential_time elapsed : ℚ) : ℚ :=
  if elapsed > 0 then sequential_time / elapsed else 0

/-- The final-comparison table: one `(label, elapsed, speedup)` row per
timing record, with `sequential_time = timings[0][1] if timings else 1`. -/
def comparison_table (timings : List (String × ℚ)) :
    List (String × ℚ × ℚ) :=
  let sequential_time := match timings with
    | [] => 1
    | t :: _ => t.2
  timings.map fun t => (t.1, t.2, speedup_of sequential_time t.2)

/-- An environment in which the thread-pool script fails with text on
standard error and every other script succeeds. -/
def failing_env : String → RunResult := fun s =>
  if s = "02_threadpool.py" then ⟨"", "boom", 1⟩
  else ⟨"some output", "", 2⟩

/-! ### Standard-output transcripts of the four runner scripts

Each runner prints a banner, the result lines, then
`print(f"\nTIME...")` (an empty line followed by the `[TIME]` line), the
`[INFO]` count line and its `[TIP]` line(s).  The formatted elapsed time
`{elapsed:.2f}` is an external wall-clock reading, passed in as the
already-formatted string `eStr`. -/

/-- `'=' * 50`. -/
def bar50 : String := String.mk (List.replicate 50 '=')

/-- Standard output of `01_sequential.py`. -/
def sequential_output (eStr : String) : List String :=
  [bar50, "APPROACH 1: Sequential (No Parallelism)", bar50]
    ++ sequential_results
    ++ ["", "[TIME] Total Time: " ++ eStr ++ " seconds",
        "[INFO] Items processed: " ++ toString numbers.length,
        "[TIP]  Each item waited 2 sec, all ran one-by-one"]

/-- Standard output of `02_threadpool.py`. -/
def threadpool_output (eStr : String) (sched : List Nat) : List String :=
  [bar50, "APPROACH 2: ThreadPoolExecutor (14 threads)", bar50]
    ++ threadpool_results sched
    ++ ["", "[TIME] Total Time: " ++ eStr ++ " seconds",
        "[INFO] Items processed: " ++ toString numbers.length,
        "[TIP]  All 14 threads ran simultaneously, GIL released during sleep"]

/-- Standard output of `03_processpool.py`. -/
def processpool_output (eStr : String) (sched : List Nat) : List String :=
  [bar50, "APPROACH 3: ProcessPoolExecutor (3 processes)", bar50]
    ++ processpool_results sched
    ++ ["", "[TIME] Total Time: " ++ eStr ++ " seconds",
        "[INFO] Items processed: " ++ toString numbers.length,
        "[TIP]  3 processes, ~5 batches of 2 sec each"]

/-- Standard output of `04_hybrid.py`. -/
def hybrid_output (eStr : String) (pids : Nat → Nat)
    (tscheds : Nat → List Nat) (psched : List Nat) : List String :=
  [bar50, "APPROACH 4: Hybrid (3 Processes × 3 Threads)", bar50]
    ++ hybrid_flat pids tscheds psched
    ++ ["", "[TIME] Total Time: " ++ eStr ++ " seconds",
        "[INFO] Items processed: " ++ toString numbers.length,
        "[TIP]  3 processes x 3 threads = 9 parallel workers",
        "[TIP]  Notice different PIDs -- proves separate processes!"]

/-- The output shape asserted by the specification: some header banner,
the result lines, a blank line, a line that is exactly
`"Total Time: {seconds} seconds"`, and finally an items-processed count
line — nothing after it. -/
def claimed_runner_output (out results : List String) : Prop :=
  ∃ header ts countLine,
    out = header ++ results
      ++ ["", "Total Time: " ++ ts ++ " seconds", countLine]

/-! ### Pool semantics: `Executor.map` returns results in submission order -/

theorem filterMap_ext {γ δ : Type} (g₁ g₂ : γ → Option δ) (l : List γ)
    (h : ∀ x ∈ l, g₁ x = g₂ x) : l.filterMap g₁ = l.filterMap g₂ := by
  induction l with
  | nil => rfl
  | cons a t ih =>
    rw [List.filterMap_cons, List.filterMap_cons, h a (List.mem_cons_self a t),
      ih fun x hx => h x (List.mem_cons_of_mem a hx)]

theorem find?_completions {α β : Type} (f : α → β) (xs : List α)
    (sched : List Nat) (i : Nat) (hi : i < xs.length) (hmem : i ∈ sched) :
    ((completions f xs sched).find? fun e => e.1 == i) =
      some (i, f (xs.get ⟨i, hi⟩)) := by
  induction sched with
  | nil => exact absurd hmem (List.not_mem_nil i)
  | cons j t ih =>
    by_cases hj : j = i
    · subst hj
      have hg : xs.get? j = some (xs.get ⟨j, hi⟩) := List.get?_eq_get hi
      show ((List.filterMap _ (j :: t)).find? _) = _
      rw [List.filterMap_cons]
      simp only [hg, Option.map_some']
      exact List.find?_cons_of_pos _ (by simp)
    · have hmem' : i ∈ t := by
        rcases List.mem_cons.mp hmem with h | h
        · exact absurd h.symm hj
        · exact h
      show ((List.filterMap _ (j :: t)).find? _) = _
      rw [List.filterMap_cons]
      cases hg : xs.get? j with
      | none =>
        simp only [hg, Option.map_none']
        exact ih hmem'
      | some x =>
        simp only [hg, Option.map_some']
        rw [List.find?_cons_of_neg _ (by simp [hj])]
        exact ih hmem'

/-- Whatever the internal completion order (any permutation of the valid
indices), `Executor.map` returns exactly the in-submission-order image of
the input list. -/
theorem executor_map_perm {α β : Type} [Inhabited α] (f : α → β)
    (xs : List α) (sched : List Nat)
    (h : sched.Perm (List.range xs.length)) :
    executor_map f xs sched = xs.map f := by
  have hall : ∀ i ∈ List.range xs.length,
      (((completions f xs sched).find? fun e => e.1 == i).map Prod.snd)
        = (some ∘ fun i => f (xs.getD i default)) i := by
    intro i hi
    have hlt : i < xs.length := List.mem_range.mp hi
    have hmem : i ∈ sched := h.mem_iff.mpr hi
    rw [find?_completions f xs sched i hlt hmem]
    simp [List.getD_eq_getElem?_getD, List.getElem?_eq_getElem hlt]
  calc executor_map f xs sched
      = (List.range xs.length).filterMap (some ∘ fun i => f (xs.getD i default)) :=
        filterMap_ext _ _ _ hall
    _ = (List.range xs.length).map fun i => f (xs.getD i default) := by
        rw [List.filterMap_eq_map]
    _ = xs.map f := by
        refine List.ext_getElem (by simp) fun n h₁ h₂ => ?_
        have hn : n < xs.length := by simpa using h₂
        simp [List.getD_eq_getElem?_getD, List.getElem?_eq_getElem hn]

/-! ### Computed forms of the per-strategy result lists -/

theorem sequential_results_eq :
    sequential_results = numbers.map square_number := by rfl

theorem chunks_eq :
    chunks = [[1, 2, 3, 4, 5], [6, 7, 8, 9, 10], [11, 12, 13, 14]] := by rfl

theorem threadpool_results_perm (sched : List Nat)
    (h : sched.Perm (List.range 14)) :
    threadpool_results sched = numbers.map square_number :=
  executor_map_perm square_number numbers sched h

theorem processpool_results_perm (sched : List Nat)
    (h : sched.Perm (List.range 14)) :
    processpool_results sched = numbers.map square_number :=
  executor_map_perm square_number numbers sched h

theorem hybrid_flat_eq (pids : Nat → Nat) (tscheds : Nat → List Nat)
    (psched : List Nat) (hp : psched.Perm (List.range 3))
    (ht0 : (tscheds 0).Perm (List.range 5))
    (ht1 : (tscheds 1).Perm (List.range 5))
    (ht2 : (tscheds 2).Perm (List.range 4)) :
    hybrid_flat pids tscheds psched =
      [1, 2, 3, 4, 5].map (square_number_pid (pids 0))
        ++ [6, 7, 8, 9, 10].map (square_number_pid (pids 1))
        ++ [11, 12, 13, 14].map (square_number_pid (pids 2)) := by
  have hb : hybrid_batches pids tscheds psched =
      chunks.enum.map fun ic => process_chunk (pids ic.1) (tscheds ic.1) ic.2 :=
    executor_map_perm _ chunks.enum psched hp
  have he : chunks.enum =
      [(0, [1, 2, 3, 4, 5]), (1, [6, 7, 8, 9, 10]), (2, [11, 12, 13, 14])] := by
    rfl
  rw [hybrid_flat, hb, he]
  simp only [List.map_cons, List.map_nil]
  rw [show process_chunk (pids 0) (tscheds 0) [1, 2, 3, 4, 5]
        = [1, 2, 3, 4, 5].map (square_number_pid (pids 0)) from
      executor_map_perm _ _ _ ht0,
    show process_chunk (pids 1) (tscheds 1) [6, 7, 8, 9, 10]
        = [6, 7, 8, 9, 10].map (square_number_pid (pids 1)) from
      executor_map_perm _ _ _ ht1,
    show process_chunk (pids 2) (tscheds 2) [11, 12, 13, 14]
        = [11, 12, 13, 14].map (square_number_pid (pids 2)) from
      executor_map_perm _ _ _ ht2]
  simp

/-! ### Claims -/

/-- C1: For each of the four strategies (sequential, thread-pool,
process-pool, hybrid) run on the fixed input list `[1..14]`, the
collection of `WorkResult` strings produced contains the square of every
`n` in `1..14` exactly once — no duplicates and no omissions — for every
internal pool completion order and any worker pids. -/
theorem strategies_squares_exactly_once (schedT schedP : List Nat)
    (pids : Nat → Nat) (tscheds : Nat → List Nat) (psched : List Nat)
    (hT : schedT.Perm (List.range 14)) (hP : schedP.Perm (List.range 14))
    (hp : psched.Perm (List.range 3))
    (ht0 : (tscheds 0).Perm (List.range 5))
    (ht1 : (tscheds 1).Perm (List.range 5))
    (ht2 : (tscheds 2).Perm (List.range 4)) :
    (∀ n ∈ numbers, sequential_results.countP (mentions_square n) = 1) ∧
    (∀ n ∈ numbers,
      (threadpool_results schedT).countP (mentions_square n) = 1) ∧
    (∀ n ∈ numbers,
      (processpool_results schedP).countP (mentions_square n) = 1) ∧
    (∀ n ∈ numbers,
      (hybrid_flat pids tscheds psched).countP (mentions_square n) = 1) := by
  refine ⟨by decide, ?_, ?_, ?_⟩
  · rw [threadpool_results_perm _ hT]; decide
  · rw [processpool_results_perm _ hP]; decide
  · rw [hybrid_flat_eq pids tscheds psched hp ht0 ht1 ht2]
    intro n hn
    fin_cases hn <;> rfl

theorem strategies_squares_exactly_once_witness :
    (∀ n ∈ numbers, sequential_results.countP (mentions_square n) = 1) ∧
    (∀ n ∈ numbers,
      (threadpool_results (List.range 14).reverse).countP
        (mentions_square n) = 1) ∧
    (∀ n ∈ numbers,
      (processpool_results (List.range 14).reverse).countP
        (mentions_square n) = 1) ∧
    (∀ n ∈ numbers,
      (hybrid_flat (fun i => 101 + i)
        (fun i => List.range (if i = 2 then 4 else 5))
        (List.range 3)).countP (mentions_square n) = 1) :=
  strategies_squares_exactly_once _ _ _ _ _
    (List.reverse_perm _) (List.reverse_perm _) (List.Perm.refl _)
    (List.Perm.refl _) (List.Perm.refl _) (List.Perm.refl _)

/-- C2: For the sequential, thread-pool, and process-pool strategies, the
result sequence equals the input order exactly — the `i`-th result is the
square line of the `i`-th input — regardless of internal completion order
inside the pools. -/
theorem results_in_input_order (schedT schedP : List Nat)
    (hT : schedT.Perm (List.range 14)) (hP : schedP.Perm (List.range 14)) :
    sequential_results = numbers.map square_number ∧
    threadpool_results schedT = numbers.map square_number ∧
    processpool_results schedP = numbers.map square_number :=
  ⟨sequential_results_eq, threadpool_results_perm _ hT,
    processpool_results_perm _ hP⟩

theorem results_in_input_order_witness :
    sequential_results = numbers.map square_number ∧
    threadpool_results (List.range 14).reverse = numbers.map square_number ∧
    processpool_results (List.range 14).reverse = numbers.map square_number :=
  results_in_input_order _ _ (List.reverse_perm _) (List.reverse_perm _)

/-- C3: For the hybrid strategy, the flattened output is grouped by chunk
in chunk-index order, and within each chunk the results appear in the
order of that chunk's sub-sequence of the input — for every process-pool
and thread-pool completion order and any worker pids. -/
theorem hybrid_grouped_by_chunks (pids : Nat → Nat)
    (tscheds : Nat → List Nat) (psched : List Nat)
    (hp : psched.Perm (List.range 3))
    (ht0 : (tscheds 0).Perm (List.range 5))
    (ht1 : (tscheds 1).Perm (List.range 5))
    (ht2 : (tscheds 2).Perm (List.range 4)) :
    hybrid_flat pids tscheds psched =
      (chunks.enum.map fun ic =>
        ic.2.map (square_number_pid (pids ic.1))).flatten := by
  rw [hybrid_flat_eq pids tscheds psched hp ht0 ht1 ht2]
  rfl

theorem hybrid_grouped_by_chunks_witness :
    hybrid_flat (fun i => 101 + i)
        (fun i => List.range (if i = 2 then 4 else 5)) (List.range 3) =
      (chunks.enum.map fun ic =>
        ic.2.map (square_number_pid ((fun i => 101 + i) ic.1))).flatten :=
  hybrid_grouped_by_chunks _ _ _ (List.Perm.refl _) (List.Perm.refl _)
    (List.Perm.refl _) (List.Perm.refl _)

/-- C4: The hybrid strategy's partition of the 14-item input is
deterministic with chunk size `5 = ceil(14/3)`, producing disjoint
contiguous chunks of sizes 5, 5, 4 whose in-order concatenation is the
original input sequence. -/
theorem chunk_partition_deterministic :
    chunk_size = (numbers.length + 3 - 1) / 3 ∧
    chunks.map List.length = [5, 5, 4] ∧
    chunks.flatten = numbers ∧
    List.Pairwise (fun c d => ∀ x ∈ c, x ∉ d) chunks := by
  refine ⟨rfl, rfl, rfl, ?_⟩
  decide

/-- C5: For every integer `n` the workload function returns the string
`"Square of {n} = {n*n}"`, whose second embedded number is exactly the
square of `n`; the hybrid variant returns exactly the same string with
`" (PID: {pid})"` appended.  The Python functions' only other behaviour
is `time.sleep(2)`, the fixed simulated latency: both are otherwise pure,
which is why they embed as pure functions here. -/
theorem square_number_format (n pid : Nat) :
    square_number n = "Square of " ++ toString n ++ " = " ++ toString (n * n) ∧
    square_number_pid pid n =
      square_number n ++ " (PID: " ++ toString pid ++ ")" ∧
    SLEEP_SECONDS = 2 :=
  ⟨rfl, rfl, rfl⟩

/-- C10: All four strategies compute the same result sequence: thread-pool
and process-pool results equal the sequential results element for element,
and every element of the hybrid strategy's flattened output is the
corresponding sequential element (same global input order) with only a
`" (PID: {pid})"` suffix appended — stronger than the per-chunk guarantee. -/
theorem strategies_equivalent (schedT schedP : List Nat)
    (pids : Nat → Nat) (tscheds : Nat → List Nat) (psched : List Nat)
    (hT : schedT.Perm (List.range 14)) (hP : schedP.Perm (List.range 14))
    (hp : psched.Perm (List.range 3))
    (ht0 : (tscheds 0).Perm (List.range 5))
    (ht1 : (tscheds 1).Perm (List.range 5))
    (ht2 : (tscheds 2).Perm (List.range 4)) :
    threadpool_results schedT = sequential_results ∧
    processpool_results schedP = sequential_results ∧
    (hybrid_flat pids tscheds psched).length = sequential_results.length ∧
    (∀ i, i < 14 →
      (hybrid_flat pids tscheds psched).getD i "" =
        sequential_results.getD i "" ++ " (PID: "
          ++ toString (pids (i / 5)) ++ ")") := by
  refine ⟨?_, ?_, ?_, ?_⟩
  · rw [threadpool_results_perm _ hT, sequential_results_eq]
  · rw [processpool_results_perm _ hP, sequential_results_eq]
  · rw [hybrid_flat_eq pids tscheds psched hp ht0 ht1 ht2]; rfl
  · rw [hybrid_flat_eq pids tscheds psched hp ht0 ht1 ht2]
    intro i hi
    interval_cases i <;> rfl

theorem strategies_equivalent_witness :
    threadpool_results (List.range 14).reverse = sequential_results ∧
    (hybrid_flat (fun i => 101 + i)
        (fun i => List.range (if i = 2 then 4 else 5))
        (List.range 3)).getD 7 "" =
      sequential_results.getD 7 "" ++ " (PID: "
        ++ toString ((fun i => 101 + i) (7 / 5)) ++ ")" := by
  have h := strategies_equivalent (List.range 14).reverse
    (List.range 14).reverse (fun i => 101 + i)
    (fun i => List.range (if i = 2 then 4 else 5)) (List.range 3)
    (List.reverse_perm _) (List.reverse_perm _) (List.Perm.refl _)
    (List.Perm.refl _) (List.Perm.refl _) (List.Perm.refl _)
  exact ⟨h.1, h.2.2.2 7 (by decide)⟩

/-- C6: In the harness's summary table, each row's speedup is the first
(sequential) elapsed time divided by that row's elapsed time when that
time is positive, and 0 (not a division-by-zero failure) when it is zero;
hence the sequential row's speedup is exactly 1 whenever its elapsed time
is positive. -/
theorem speedup_table_guarded (timings : List (String × ℚ)) (l0 : String)
    (e0 : ℚ) (rest : List (String × ℚ)) (h : timings = (l0, e0) :: rest) :
    (∀ row ∈ comparison_table timings,
      row.2.2 = if 0 < row.2.1 then e0 / row.2.1 else 0) ∧
    (0 < e0 → (comparison_table timings).head? = some (l0, e0, 1)) := by
  subst h
  have hct : comparison_table ((l0, e0) :: rest)
      = ((l0, e0) :: rest).map fun t => (t.1, t.2, speedup_of e0 t.2) := rfl
  constructor
  · intro row hrow
    rw [hct] at hrow
    rcases List.mem_map.mp hrow with ⟨t, _, rfl⟩
    rfl
  · intro he
    rw [hct]
    simp only [List.map_cons, List.head?_cons]
    have hs : speedup_of e0 e0 = 1 := by
      rw [speedup_of, if_pos he, div_self (ne_of_gt he)]
    rw [hs]

theorem speedup_table_guarded_witness :
    (comparison_table [("a", (2 : ℚ)), ("b", 0)]).head? = some ("a", 2, 1) :=
  (speedup_table_guarded _ "a" 2 [("b", 0)] rfl).2 (by norm_num)

/-- C7: For every environment of subprocess outcomes — in particular when
some strategy script fails with standard-error text — the harness prints
the `"Error: {stderr}"` line for that strategy, still records one timing
per strategy in order, and the final comparison table still has exactly
one row per strategy, with the strategies' labels. -/
theorem harness_partial_failure (env : String → RunResult) :
    (runHarness env).timings.map Prod.fst = approaches.map Prod.snd ∧
    (comparison_table (runHarness env).timings).map (fun r => r.1)
      = approaches.map Prod.snd ∧
    (∀ a ∈ approaches, (env a.1).stderr ≠ "" →
      ("Error: " ++ (env a.1).stderr) ∈ (runHarness env).printed) := by
  refine ⟨rfl, rfl, ?_⟩
  intro a ha
  fin_cases ha <;> intro hne <;>
    simp [runHarness, runApproach, approaches, List.foldl_cons,
      List.foldl_nil, hne]

theorem harness_partial_failure_witness :
    ("Error: " ++ (failing_env "02_threadpool.py").stderr)
        ∈ (runHarness failing_env).printed ∧
    (runHarness failing_env).timings.map Prod.fst
      = approaches.map Prod.snd := by
  have h := harness_partial_failure failing_env
  exact ⟨h.2.2 ("02_threadpool.py", "ThreadPool (14 threads)")
    (by decide) (by decide), h.1⟩

/-- C8 counterexample: the sequential runner's standard output does not
have the claimed shape — header banner, the WorkResult lines, a blank
line, a line `"Total Time: {seconds} seconds"`, and a final
items-processed count line.  Its total-time line actually reads
`"[TIME] Total Time: ..."` and a `[TIP]` line follows the count line. -/
theorem sequential_output_not_claimed_shape :
    ¬ claimed_runner_output (sequential_output "28.03")
        (numbers.map square_number) := by
  rintro ⟨header, ts, countLine, h⟩
  rw [List.append_assoc] at h
  have hL := congrArg List.length h
  rw [show (sequential_output "28.03").length = 21 from rfl] at hL
  simp [numbers] at hL
  have hlen : header.length = 4 := by omega
  have h4 : (sequential_output "28.03").drop 4
      = numbers.map square_number
        ++ ["", "Total Time: " ++ ts ++ " seconds", countLine] := by
    conv_lhs => rw [h]
    rw [List.drop_left' hlen]
  have hhead : some "Square of 2 = 4" = some "Square of 1 = 1" := by
    calc some "Square of 2 = 4"
        = ((sequential_output "28.03").drop 4).head? := rfl
      _ = (numbers.map square_number
            ++ ["", "Total Time: " ++ ts ++ " seconds", countLine]).head? :=
          congrArg List.head? h4
      _ = some "Square of 1 = 1" := rfl
  exact absurd hhead (by decide)

/-- C8 (amended): each runner's standard output is a three-line header
banner, one line per WorkResult in input order (`"Square of {n} = {n*n}"`,
the hybrid lines appending `" (PID: {pid})"`), a blank line, a
`"[TIME] Total Time: {seconds:.2f} seconds"` line, an
`"[INFO] Items processed: {count}"` line, and finally that runner's
`"[TIP]"` advice line(s). -/
theorem runner_output_shapes (eStr : String) (schedT schedP : List Nat)
    (pids : Nat → Nat) (tscheds : Nat → List Nat) (psched : List Nat)
    (hT : schedT.Perm (List.range 14)) (hP : schedP.Perm (List.range 14))
    (hp : psched.Perm (List.range 3))
    (ht0 : (tscheds 0).Perm (List.range 5))
    (ht1 : (tscheds 1).Perm (List.range 5))
    (ht2 : (tscheds 2).Perm (List.range 4)) :
    sequential_output eStr
      = [bar50, "APPROACH 1: Sequential (No Parallelism)", bar50]
        ++ numbers.map square_number
        ++ ["", "[TIME] Total Time: " ++ eStr ++ " seconds",
            "[INFO] Items processed: 14",
            "[TIP]  Each item waited 2 sec, all ran one-by-one"] ∧
    threadpool_output eStr schedT
      = [bar50, "APPROACH 2: ThreadPoolExecutor (14 threads)", bar50]
        ++ numbers.map square_number
        ++ ["", "[TIME] Total Time: " ++ eStr ++ " seconds",
            "[INFO] Items processed: 14",
            "[TIP]  All 14 threads ran simultaneously, GIL released during sleep"] ∧
    processpool_output eStr schedP
      = [bar50, "APPROACH 3: ProcessPoolExecutor (3 processes)", bar50]
        ++ numbers.map square_number
        ++ ["", "[TIME] Total Time: " ++ eStr ++ " seconds",
            "[INFO] Items processed: 14",
            "[TIP]  3 processes, ~5 batches of 2 sec each"] ∧
    hybrid_output eStr pids tscheds psched
      = [bar50, "APPROACH 4: Hybrid (3 Processes × 3 Threads)", bar50]
        ++ (chunks.enum.map fun ic =>
            ic.2.map (square_number_pid (pids ic.1))).flatten
        ++ ["", "[TIME] Total Time: " ++ eStr ++ " seconds",
            "[INFO] Items processed: 14",
            "[TIP]  3 processes x 3 threads = 9 parallel workers",
            "[TIP]  Notice different PIDs -- proves separate processes!"] := by
  refine ⟨rfl, ?_, ?_, ?_⟩
  · rw [threadpool_output, threadpool_results_perm _ hT]
    rfl
  · rw [processpool_output, processpool_results_perm _ hP]
    rfl
  · rw [hybrid_output, hybrid_flat_eq pids tscheds psched hp ht0 ht1 ht2]
    rfl

theorem runner_output_shapes_witness :
    sequential_output "28.03"
      = [bar50, "APPROACH 1: Sequential (No Parallelism)", bar50]
        ++ numbers.map square_number
        ++ ["", "[TIME] Total Time: " ++ "28.03" ++ " seconds",
            "[INFO] Items processed: 14",
            "[TIP]  Each item waited 2 sec, all ran one-by-one"] ∧
    hybrid_output "28.03" (fun i => 101 + i)
        (fun i => List.range (if i = 2 then 4 else 5)) (List.range 3)
      = [bar50, "APPROACH 4: Hybrid (3 Processes × 3 Threads)", bar50]
        ++ (chunks.enum.map fun ic =>
            ic.2.map (square_number_pid ((fun i => 101 + i) ic.1))).flatten
        ++ ["", "[TIME] Total Time: " ++ "28.03" ++ " seconds",
            "[INFO] Items processed: 14",
            "[TIP]  3 processes x 3 threads = 9 parallel workers",
            "[TIP]  Notice different PIDs -- proves separate processes!"] := by
  have h := runner_output_shapes "28.03" (List.range 14).reverse
    (List.range 14).reverse (fun i => 101 + i)
    (fun i => List.range (if i = 2 then 4 else 5)) (List.range 3)
    (List.reverse_perm _) (List.reverse_perm _) (List.Perm.refl _)
    (List.Perm.refl _) (List.Perm.refl _) (List.Perm.refl _)
  exact ⟨h.1, h.2.2.2⟩

end Multidrill
